import Mathlib

/-!
Verification development for the dalvik_2.2_rpd32_port repository.

The development shallowly embeds, in Lean, the functions of the three source
units that the checked properties speak about:

* `libdex/DexSwapVerify.c` — the DEX byte-swap / structural verifier
  (`dexFixByteOrdering`, `swapMap`, `swapTriesAndCatches`,
  `setHandlerOffsAndVerify`, `intraVerifyStringDataItem`,
  `iterateSectionWithOptionalUpdate`);
* `vm/Debugger.c` — the debugger bridge (`tweakSlot`, `untweakSlot`,
  `dvmDbgGetClassInfo`, `dvmDbgInvokeMethod`, `threadObjToThread`);
* `libcore/.../org_apache_harmony_xml_ExpatParser.cpp` — the XML event
  bridge (`ExpatElementName::matchesQName`, `startElement`, `endElement`,
  the name string stack).

Buffers are modelled as `List Nat` of byte values, machine integers as
`Nat`/`Int` with explicit wrapping where it matters, fallible code as
`Option`.  Primitives that the source units call but whose code is outside
the given files (the LEB128 readers of `Leb128.h`, zlib's `adler32`, the
DEX magic and map-type constants of `DexFile.h`, the JDWP status constants)
are modelled from the specification's description of them; each such
definition says so in its doc comment.
-/

namespace DalvikPort

/-! ## XML event bridge: qualified-name matching (`ExpatElementName`) -/

/-- The decomposed element/attribute name held by `ExpatElementName`:
namespace URI, local name, and namespace prefix (the source members
`mUri`, `mLocalName`, `mPrefix`; the third is named `mPfx` here).  Absent
components are the empty string, as in the source. -/
structure ExpatElementName where
  mUri : List Char
  mLocalName : List Char
  mPfx : List Char

/-- Split a C string at its *last* `':'`, as `strrchr(qName, ':')` does in
`ExpatElementName::matchesQName`: `none` when no colon occurs, otherwise
the characters before and after the last colon. -/
def splitAtLastColon : List Char → Option (List Char × List Char)
  | [] => none
  | c :: rest =>
    match splitAtLastColon rest with
    | some (pre, post) => some (c :: pre, post)
    | none => if c = ':' then some ([], rest) else none

/-- `ExpatElementName::matchesQName` from
`org_apache_harmony_xml_ExpatParser.cpp`: local names are compared when the
query has no colon or this name has no prefix; otherwise the query's prefix
part (up to its last colon) must equal this name's prefix and the remainder
must equal the local name. -/
def matchesQName (e : ExpatElementName) (qName : List Char) : Bool :=
  match splitAtLastColon qName with
  | none => qName = e.mLocalName
  | some (pre, post) =>
    if e.mPfx = [] then
      qName = e.mLocalName
    else
      e.mPfx.length = pre.length ∧ pre = e.mPfx ∧ post = e.mLocalName

/-! ## Debugger bridge: local-variable slot remapping -/

/-- `kSlot0Sub` from `vm/Debugger.c`: the sentinel slot substituted for true
register 0 (the "Eclipse workaround"). -/
def kSlot0Sub : Int := 1000

/-- `tweakSlot` from `vm/Debugger.c`: a variable named exactly `"this"` is
reported as slot 0; any other variable in true register 0 is reported as the
sentinel `kSlot0Sub`; every other register is reported unchanged. -/
def tweakSlot (slot : Int) (name : String) : Int :=
  if name = "this" then 0
  else if slot = 0 then kSlot0Sub
  else slot

/-- `untweakSlot` from `vm/Debugger.c`: sentinel `kSlot0Sub` maps back to
register 0; slot 0 maps to `registersSize - insSize` of the frame's method
(the source reads both fields from the frame's save area; the model takes
the two field values directly); every other slot passes through. -/
def untweakSlot (slot : Int) (registersSize insSize : Nat) : Int :=
  if slot = kSlot0Sub then 0
  else if slot = 0 then (registersSize : Int) - (insSize : Int)
  else slot

/-! ## Debugger bridge: class info (`dvmDbgGetClassInfo`) -/

/-- The class life-cycle states of the VM's class objects.  Modelled from
the spec: the enumeration itself lives in a header outside the given
sources; `dvmDbgGetClassInfo` only ever compares against the error state.
The non-error states record how far loading has progressed. -/
inductive ClassStatus where
  | error
  | notReady
  | loaded
  | prepared
  | resolved
  | verifying
  | verified
  | initializing
  | initialized
deriving DecidableEq

/-- JDWP class-status flag: verified.  Modelled from the spec: JDWP
wire-constant, defined outside the given sources. -/
def CS_VERIFIED : Nat := 1

/-- JDWP class-status flag: prepared.  Modelled from the spec. -/
def CS_PREPARED : Nat := 2

/-- JDWP class-status flag: initialized.  Modelled from the spec. -/
def CS_INITIALIZED : Nat := 4

/-- JDWP class-status flag: error.  Modelled from the spec. -/
def CS_ERROR : Nat := 8

/-- JDWP type tags for reference types. -/
inductive TypeTag where
  | ttClass
  | ttInterface
  | ttArray
deriving DecidableEq

/-- The fields of a `ClassObject` consulted by `dvmDbgGetClassInfo`:
its descriptor, its status, and whether it is an interface
(`dvmIsInterfaceClass`). -/
structure ClassObjectInfo where
  descriptor : List Char
  status : ClassStatus
  isInterface : Bool

/-- `dvmDbgGetClassInfo` from `vm/Debugger.c` (the type tag and status it
reports; the signature out-parameter is a copy of the descriptor and is not
modelled).  A descriptor starting with `'['` reports the fixed
verified+prepared status and the array tag; otherwise the status is
`CS_ERROR` when the class is in the error state and the fixed
verified+prepared+initialized value in every other state. -/
def dvmDbgGetClassInfo (clazz : ClassObjectInfo) : TypeTag × Nat :=
  if clazz.descriptor.headD ' ' = '[' then
    (TypeTag.ttArray, CS_VERIFIED ||| CS_PREPARED)
  else
    ((if clazz.isInterface then TypeTag.ttInterface else TypeTag.ttClass),
      if clazz.status = ClassStatus.error then CS_ERROR
      else CS_VERIFIED ||| CS_PREPARED ||| CS_INITIALIZED)

/-- Modelled from the spec: the status flags that actually describe a
class's progress — the "true error/verified status" the claim says
non-array classes report.  A class that has not been verified carries no
verified flag, one not initialized no initialized flag. -/
def actualStatusFlags : ClassStatus → Nat
  | ClassStatus.error => CS_ERROR
  | ClassStatus.notReady => 0
  | ClassStatus.loaded => 0
  | ClassStatus.prepared => CS_PREPARED
  | ClassStatus.resolved => CS_PREPARED
  | ClassStatus.verifying => CS_PREPARED
  | ClassStatus.verified => CS_VERIFIED ||| CS_PREPARED
  | ClassStatus.initializing => CS_VERIFIED ||| CS_PREPARED
  | ClassStatus.initialized => CS_VERIFIED ||| CS_PREPARED ||| CS_INITIALIZED

/-- Modelled from the spec: the status the claim says `dvmDbgGetClassInfo`
reports — fixed verified+prepared for arrays, the actual status flags for
every other class. -/
def claimedClassInfoStatus (clazz : ClassObjectInfo) : Nat :=
  if clazz.descriptor.headD ' ' = '[' then CS_VERIFIED ||| CS_PREPARED
  else actualStatusFlags clazz.status

/-! ## LEB128 readers

`DexSwapVerify.c` reads variable-length integers through
`readAndVerifyUnsignedLeb128` / `readAndVerifySignedLeb128` from
`Leb128.h`, which is not among the given sources. -/

/-- Helper for `readAndVerifyUnsignedLeb128`: reads continuation bytes,
accumulating 7 payload bits per byte; `cnt` counts bytes already consumed.
Reading runs off the modelled buffer, uses more than five bytes, or puts
payload above bit 31 in the fifth byte, all fail. -/
def ulebGo (shift acc cnt : Nat) : List Nat → Option (Nat × Nat)
  | [] => none
  | b :: rest =>
    if b < 0x80 then
      if cnt = 4 ∧ 0x0f < b then none
      else some (acc ||| (b <<< shift), cnt + 1)
    else if 4 ≤ cnt then none
    else ulebGo (shift + 7) (acc ||| ((b &&& 0x7f) <<< shift)) (cnt + 1) rest

/-- Modelled from the spec: the unsigned LEB128 reader of `Leb128.h`
(outside the given sources) — 7 payload bits per byte, high bit is the
continuation flag, at most five bytes.  Returns the decoded value and the
number of bytes consumed, or `none` where the source sets `okay = false`. -/
def readAndVerifyUnsignedLeb128 (bytes : List Nat) : Option (Nat × Nat) :=
  ulebGo 0 0 0 bytes

/-- Sign-extend the `bits`-bit value `raw` to a mathematical integer. -/
def signExtend (bits raw : Nat) : Int :=
  if raw.testBit (bits - 1) then (raw : Int) - ((2 : Int) ^ bits) else (raw : Int)

/-- Helper for `readAndVerifySignedLeb128`; like `ulebGo` but the result is
sign-extended from the last payload bit (bit 31 when five bytes are used). -/
def slebGo (shift acc cnt : Nat) : List Nat → Option (Int × Nat)
  | [] => none
  | b :: rest =>
    if b < 0x80 then
      if cnt = 4 then
        if 0x0f < b then none
        else some (signExtend 32 (acc ||| (b <<< shift)), 5)
      else some (signExtend (shift + 7) (acc ||| (b <<< shift)), cnt + 1)
    else if 4 ≤ cnt then none
    else slebGo (shift + 7) (acc ||| ((b &&& 0x7f) <<< shift)) (cnt + 1) rest

/-- Modelled from the spec: the signed LEB128 reader of `Leb128.h` (outside
the given sources) — as the unsigned reader, but the value sign-extends
from the last emitted bit. -/
def readAndVerifySignedLeb128 (bytes : List Nat) : Option (Int × Nat) :=
  slebGo 0 0 0 bytes

/-- Read an unsigned LEB128 value at byte offset `pos` of region `d`,
returning the value and the offset just past it. -/
def readUlebAt (d : List Nat) (pos : Nat) : Option (Nat × Nat) :=
  (readAndVerifyUnsignedLeb128 (d.drop pos)).map fun vc => (vc.1, pos + vc.2)

/-- Read a signed LEB128 value at byte offset `pos` of region `d`. -/
def readSlebAt (d : List Nat) (pos : Nat) : Option (Int × Nat) :=
  (readAndVerifySignedLeb128 (d.drop pos)).map fun vc => (vc.1, pos + vc.2)

/-! ## `intraVerifyStringDataItem` -/

/-- The modified-UTF-8 unit loop of `intraVerifyStringDataItem` in
`DexSwapVerify.c`: decode exactly `utf16Size` logical units, returning the
remaining bytes.  The source checks `data >= fileEnd` only before the lead
byte of each unit and reads continuation bytes unchecked; in this model of
the readable region, running off the end of the list fails. -/
def decodeMutf8Units : List Nat → Nat → Option (List Nat)
  | data, 0 => some data
  | data, n + 1 =>
    match data with
    | [] => none
    | byte1 :: rest =>
      if byte1 >>> 4 = 0 then
        -- special case of bit pattern 0xxx: a bare zero byte terminates early
        if byte1 = 0 then none else decodeMutf8Units rest n
      else if byte1 >>> 4 ≤ 7 then
        -- bit pattern 0xxx, no extra bytes
        decodeMutf8Units rest n
      else if byte1 >>> 4 = 0xe then
        -- bit pattern 1110: two continuation bytes
        match rest with
        | byte2 :: byte3 :: rest2 =>
          if ¬ (byte2 &&& 0xc0 = 0x80) then none
          else if ¬ (byte3 &&& 0xc0 = 0x80) then none
          else
            let value :=
              ((byte1 &&& 0x0f) <<< 12) ||| ((byte2 &&& 0x3f) <<< 6) ||| (byte3 &&& 0x3f)
            if value < 0x800 then none else decodeMutf8Units rest2 n
        | _ => none
      else if byte1 >>> 4 = 0xc ∨ byte1 >>> 4 = 0xd then
        -- bit pattern 110x: one continuation byte
        match rest with
        | byte2 :: rest2 =>
          if ¬ (byte2 &&& 0xc0 = 0x80) then none
          else
            let value := ((byte1 &&& 0x1f) <<< 6) ||| (byte2 &&& 0x3f)
            if value ≠ 0 ∧ value < 0x80 then none else decodeMutf8Units rest2 n
        | [] => none
      else
        -- bit patterns 10xx and 1111: illegal start bytes
        none

/-- `intraVerifyStringDataItem` from `DexSwapVerify.c` over the item's byte
region: read the declared `utf16_size`, decode exactly that many
modified-UTF-8 units, then require the next byte to be the zero
terminator; returns the bytes past the terminator. -/
def intraVerifyStringDataItem (bytes : List Nat) : Option (List Nat) :=
  match readAndVerifyUnsignedLeb128 bytes with
  | none => none
  | some (utf16Size, consumed) =>
    match decodeMutf8Units (bytes.drop consumed) utf16Size with
    | none => none
    | some rest =>
      match rest with
      | [] => none
      | b :: rest2 => if b ≠ 0 then none else some rest2

/-! ## `iterateSectionWithOptionalUpdate` -/

/-- Round `offset` up to the next multiple of `alignment`.  The source
computes `(offset + alignmentMask) & ~alignmentMask`; for the power-of-two
alignments it is called with this equals rounding up to a multiple. -/
def alignUp (offset alignment : Nat) : Nat :=
  ((offset + alignment - 1) / alignment) * alignment

/-- The zero-padding scan of `iterateSectionWithOptionalUpdate`: every byte
of the file from `offset` (inclusive) to `newOffset` (exclusive) is zero. -/
def iterateSectionPadOk (file : List Nat) (offset newOffset : Nat) : Bool :=
  (List.range' offset (newOffset - offset)).all fun j => file.getD j 0 == 0

/-- `iterateSectionWithOptionalUpdate` from `DexSwapVerify.c`, with the
per-item visitor abstracted as `func : Nat → Option Nat` from an item's
start offset to the offset just past it (`none` models a NULL return).
Before each of the `count` items, the offset is aligned up and any skipped
bytes must be zero and inside the file; after each item the new offset must
not pass the end of the file.  The registration of visited items into the
tracking map mutates state not observed by this development and is elided;
`some` returns the section's end offset. -/
def iterateSection (file : List Nat) (fileLen : Nat) (func : Nat → Option Nat)
    (alignment : Nat) : Nat → Nat → Option Nat
  | offset, 0 => some offset
  | offset, count + 1 =>
    let newOffset := alignUp offset alignment
    -- the source range-checks and scans the gap only when offset < newOffset
    if offset < newOffset ∧ (fileLen < newOffset ∨ iterateSectionPadOk file offset newOffset = false)
    then none
    else
      match func newOffset with
      | none => none
      | some endOffset =>
        if fileLen < endOffset then none
        else iterateSection file fileLen func alignment endOffset count

/-! ## `dexFixByteOrdering`: magic, length and checksum checks -/

/-- Modelled from the spec: the fixed 4-byte format identifier `DEX_MAGIC`
(`"dex\n"`).  The exact bytes are defined in `DexFile.h`, outside the given
sources; the checks only compare against the fixed constant. -/
def dexMagic : List Nat := [0x64, 0x65, 0x78, 0x0a]

/-- Modelled from the spec: the fixed 4-byte version identifier
`DEX_MAGIC_VERS` (`"035\0"`), defined outside the given sources. -/
def dexMagicVers : List Nat := [0x30, 0x33, 0x35, 0x00]

/-- Read the 4-byte little-endian field at byte offset `off` of the raw
buffer — the value `SWAP4(field)` yields on any host. -/
def read32le (addr : List Nat) (off : Nat) : Nat :=
  addr.getD off 0 + 0x100 * addr.getD (off + 1) 0
    + 0x10000 * addr.getD (off + 2) 0 + 0x1000000 * addr.getD (off + 3) 0

/-- Interpret a 32-bit value as the C `int` it becomes when cast, as in
`int expectedLen = (int) SWAP4(pHeader->fileSize)`. -/
def toInt32 (n : Nat) : Int :=
  if n % 2 ^ 32 < 2 ^ 31 then ((n % 2 ^ 32 : Nat) : Int)
  else ((n % 2 ^ 32 : Nat) : Int) - 2 ^ 32

/-- The Adler-32 loop: `a` starts at 1 and `b` at 0, each byte updates
`a := (a + byte) % 65521` then `b := (b + a) % 65521`. -/
def adlerGo : Nat → Nat → List Nat → Nat × Nat
  | a, b, [] => (a, b)
  | a, b, x :: xs => adlerGo ((a + x) % 65521) ((b + (a + x) % 65521) % 65521) xs

/-- Modelled from the spec: zlib's `adler32` over a byte run, seeded with
the reference algorithm's initial state `adler32(0L, Z_NULL, 0) = 1`. -/
def adler32 (bytes : List Nat) : Nat :=
  ((adlerGo 1 0 bytes).2 <<< 16) + (adlerGo 1 0 bytes).1

/-- The byte range the checksum covers: from immediately after the checksum
field (offset 12 = magic + checksum) through the declared file size, taken
from the pre-swap buffer.  The source computes the length as
`storedFileSize - nonSum` in `u4` arithmetic; declared sizes below 12 make
the source read out of bounds and are outside this model. -/
def dexChecksumRegion (addr : List Nat) : List Nat :=
  (addr.drop 12).take (read32le addr 32 - 12)

/-- The magic, length and checksum checks that `dexFixByteOrdering` in
`DexSwapVerify.c` performs, in source order, before `swapDexHeader` swaps
any header field in place: `true` iff all three pass.  The declared file
size sits at byte offset 32 and the stored checksum at byte offset 8 of
the header; both are byte-swapped (here: read little-endian) only for the
comparisons. -/
def dexFixPrelude (addr : List Nat) (len : Nat) : Bool :=
  if addr.take 4 ≠ dexMagic then false
  else if (addr.drop 4).take 4 ≠ dexMagicVers then false
  else if (len : Int) < toInt32 (read32le addr 32) then false
  else if adler32 (dexChecksumRegion addr) ≠ read32le addr 8 then false
  else true

/-! ## Debugger bridge: cross-thread invocation prelude -/

/-- The JDWP result codes `dvmDbgInvokeMethod` returns from its rejection
checks.  Modelled from the spec: the numeric wire values live in the JDWP
headers outside the given sources; only their distinctness matters here. -/
inductive JdwpError where
  | errNone
  | errInvalidThread
  | errThreadSuspended
deriving DecidableEq

/-- The per-thread invocation-request slot (`DebugInvokeReq`): the
readiness flag, the posted-request flag, and the request fields
`dvmDbgInvokeMethod` populates. -/
structure DebugInvokeReq where
  ready : Bool
  invokeNeeded : Bool
  obj : Nat
  thread : Nat
  clazz : Nat
  method : Nat
  numArgs : Nat
  argArray : List Nat
  options : Nat

/-- The fields of a VM `Thread` record that `dvmDbgInvokeMethod` consults:
the managed thread object it answers to (an object id here), its suspend
counter, and its invocation-request slot. -/
structure VmThread where
  threadObj : Nat
  suspendCount : Nat
  invokeReq : DebugInvokeReq

/-- `threadObjToThread` from `vm/Debugger.c`: linear scan of the thread
list for the thread whose `threadObj` matches, `none` for NULL. -/
def threadObjToThread (threads : List VmThread) (threadObj : Nat) : Option VmThread :=
  threads.find? fun t => t.threadObj == threadObj

/-- Replace the first thread in the list whose `threadObj` matches — the
record `threadObjToThread` returned a pointer to and the source then
mutates in place. -/
def updateThread (threads : List VmThread) (threadObj : Nat)
    (f : VmThread → VmThread) : List VmThread :=
  match threads with
  | [] => []
  | t :: rest =>
    if t.threadObj == threadObj then f t :: rest
    else t :: updateThread rest threadObj f

/-- The rejection checks and request-population step of
`dvmDbgInvokeMethod` from `vm/Debugger.c` (everything up to releasing the
thread-list lock; the subsequent suspend/resume hand-off and the wait on
the request's condition variable are concurrent control flow past the
populated state this model stops at).  Returns the error code and the
thread list as left behind: unchanged on every rejection, with the
target's request slot populated and `invokeNeeded` set on success. -/
def dvmDbgInvokeMethod (threads : List VmThread) (threadId objectId classId methodId : Nat)
    (numArgs : Nat) (argArray : List Nat) (options : Nat) :
    JdwpError × List VmThread :=
  match threadObjToThread threads threadId with
  | none => (JdwpError.errInvalidThread, threads)
  | some targetThread =>
    if targetThread.invokeReq.ready = false then (JdwpError.errInvalidThread, threads)
    else if 1 < targetThread.suspendCount then (JdwpError.errThreadSuspended, threads)
    else
      (JdwpError.errNone,
        updateThread threads threadId fun t =>
          { t with invokeReq :=
            { t.invokeReq with
                obj := objectId
                thread := threadId
                clazz := classId
                method := methodId
                numArgs := numArgs
                argArray := argArray
                options := options
                invokeNeeded := true } })

/-! ## XML event bridge: element name stack -/

/-- The three interned string handles (as abstract identities) produced
for an element at its start-element event: URI, local name, qualified
name. -/
structure ElementStrings where
  uri : Nat
  localName : Nat
  qName : Nat

/-- A well-formed nested element structure: each node is one matched
start-element/end-element pair with its decomposed name, enclosing its
children. -/
inductive XmlTree where
  | node : ElementStrings → List XmlTree → XmlTree

/-- One listener invocation made by the element handlers. -/
inductive ListenerCall where
  | startEl (uri localName qName : Nat)
  | endEl (uri localName qName : Nat)
deriving DecidableEq

/-- `stringStackPush` from `org_apache_harmony_xml_ExpatParser.cpp` (the
growable array is modelled as a list). -/
def stringStackPush (stack : List Nat) (s : Nat) : List Nat := s :: stack

/-- `stringStackPop`: pops the top handle; an empty stack yields NULL
(handle 0). -/
def stringStackPop : List Nat → Nat × List Nat
  | [] => (0, [])
  | s :: rest => (s, rest)

/-- The name-stack effect and listener call of `startElement`: push
qualified name, then URI, then local name; call the listener with
(uri, localName, qName). -/
def startElementStep (stack : List Nat) (e : ElementStrings) :
    List Nat × ListenerCall :=
  let stack1 := stringStackPush stack e.qName
  let stack2 := stringStackPush stack1 e.uri
  let stack3 := stringStackPush stack2 e.localName
  (stack3, ListenerCall.startEl e.uri e.localName e.qName)

/-- The name-stack effect and listener call of `endElement`: pop local
name, then URI, then qualified name; call the listener with
(uri, localName, qName). -/
def endElementStep (stack : List Nat) : List Nat × ListenerCall :=
  let p1 := stringStackPop stack
  let p2 := stringStackPop p1.2
  let p3 := stringStackPop p2.2
  (p3.2, ListenerCall.endEl p2.1 p1.1 p3.1)

mutual

/-- Run the element handlers over one element and its subtree, starting
from `stack`: the emitted listener calls and the final stack. -/
def runTree : XmlTree → List Nat → List ListenerCall × List Nat
  | XmlTree.node e children, stack =>
    let s := startElementStep stack e
    let inner := runForest children s.1
    let f := endElementStep inner.2
    (s.2 :: inner.1 ++ [f.2], f.1)

/-- Run the element handlers over a sequence of sibling subtrees. -/
def runForest : List XmlTree → List Nat → List ListenerCall × List Nat
  | [], stack => ([], stack)
  | t :: ts, stack =>
    let r1 := runTree t stack
    let r2 := runForest ts r1.2
    (r1.1 ++ r2.1, r2.2)

end

mutual

/-- The calls the claim says the handlers must produce: each end-element
call carries exactly the three string identities of its matching
start-element call, in properly nested order. -/
def treeTrace : XmlTree → List ListenerCall
  | XmlTree.node e children =>
    ListenerCall.startEl e.uri e.localName e.qName ::
      forestTrace children ++ [ListenerCall.endEl e.uri e.localName e.qName]

/-- `treeTrace` over sibling subtrees. -/
def forestTrace : List XmlTree → List ListenerCall
  | [] => []
  | t :: ts => treeTrace t ++ forestTrace ts

end

/-! ## `swapTriesAndCatches` / `setHandlerOffsAndVerify`

The code item's handler region is modelled as the byte list `d` running
from `dexGetCatchHandlerData(code)` to the end of the file, indexed by
offsets as the source's `handlersBase + offset` pointers are; the tries
array is modelled as a list of already-swapped `DexTry` records. -/

/-- One entry of a code item's tries array (`DexTry`), fields in host
order. -/
structure DexTry where
  startAddr : Nat
  insnCount : Nat
  handlerOff : Nat

/-- The inner loop of `setHandlerOffsAndVerify`: read `n` (type index,
catch address) pairs starting at `pos`, requiring each type index below
`typeIdsSize` and each address below the instruction count; `some`
returns the offset past the pairs. -/
def checkHandlerCatches (d : List Nat) (insnsSize typeIdsSize : Nat) :
    Nat → Nat → Option Nat
  | pos, 0 => some pos
  | pos, n + 1 =>
    match readUlebAt d pos with
    | none => none
    | some (typeIdx, pos1) =>
      if typeIdsSize ≤ typeIdx then none
      else
        match readUlebAt d pos1 with
        | none => none
        | some (addr, pos2) =>
          if insnsSize ≤ addr then none
          else checkHandlerCatches d insnsSize typeIdsSize pos2 n

/-- `setHandlerOffsAndVerify` from `DexSwapVerify.c`: walk `n` handler
entries from `pos`, recording each entry's start offset, bounding each
signed size to `[-65536, 65536]` (non-positive means `|size|` typed
catches plus a catch-all address, positive means `size` typed catches),
and range-checking every type index and catch address.  `some` returns
the recorded offsets and the end offset (the source signals failure by
returning offset 0). -/
def setHandlerOffsAndVerify (d : List Nat) (insnsSize typeIdsSize : Nat) :
    Nat → Nat → Option (List Nat × Nat)
  | pos, 0 => some ([], pos)
  | pos, n + 1 =>
    match readSlebAt d pos with
    | none => none
    | some (size, pos1) =>
      if size < -65536 ∨ 65536 < size then none
      else
        match checkHandlerCatches d insnsSize typeIdsSize pos1 size.natAbs with
        | none => none
        | some pos2 =>
          if size ≤ 0 then
            match readUlebAt d pos2 with
            | none => none
            | some (addr, pos3) =>
              if insnsSize ≤ addr then none
              else
                match setHandlerOffsAndVerify d insnsSize typeIdsSize pos3 n with
                | none => none
                | some (offs, endOffset) => some (pos :: offs, endOffset)
          else
            match setHandlerOffsAndVerify d insnsSize typeIdsSize pos2 n with
            | none => none
            | some (offs, endOffset) => some (pos :: offs, endOffset)

/-- The try-range loop of `swapTriesAndCatches`: each try's start address
must not lie below the previous range's end, must lie below the
instruction count, its declared handler offset must be among the recorded
ones, and its end (`startAddr + insnCount`) must not pass the instruction
count. -/
def checkTries (insnsSize : Nat) (handlerOffs : List Nat) : Nat → List DexTry → Bool
  | _, [] => true
  | lastEnd, t :: rest =>
    if t.startAddr < lastEnd then false
    else if insnsSize ≤ t.startAddr then false
    else if ¬ handlerOffs.contains t.handlerOff then false
    else if insnsSize < t.startAddr + t.insnCount then false
    else checkTries insnsSize handlerOffs (t.startAddr + t.insnCount) rest

/-- `swapTriesAndCatches` from `DexSwapVerify.c` for a code item with
instruction count `insnsSize` against a type table of `typeIdsSize`
entries: read the handlers count (it must lie strictly between 0 and
65536), walk and verify the handler list recording its entry offsets,
then verify the tries array; `some` returns the end offset of the
encoded handler data. -/
def swapTriesAndCatches (insnsSize typeIdsSize : Nat) (tries : List DexTry)
    (d : List Nat) : Option Nat :=
  match readUlebAt d 0 with
  | none => none
  | some (handlersSize, pos0) =>
    if handlersSize = 0 ∨ 65536 ≤ handlersSize then none
    else
      match setHandlerOffsAndVerify d insnsSize typeIdsSize pos0 handlersSize with
      | none => none
      | some (handlerOffs, endOffset) =>
        if checkTries insnsSize handlerOffs 0 tries then some endOffset else none

/-- One decoded handler entry: its start offset in the handler region, its
(type index, catch address) pairs, and its optional catch-all address. -/
structure CatchHandler where
  off : Nat
  catches : List (Nat × Nat)
  catchAllAddr : Option Nat

/-- Claim-side parse of `n` (type index, catch address) pairs at `pos`,
with no range checks. -/
def decodeCatches (d : List Nat) : Nat → Nat → Option (List (Nat × Nat) × Nat)
  | pos, 0 => some ([], pos)
  | pos, n + 1 =>
    match readUlebAt d pos with
    | none => none
    | some (typeIdx, pos1) =>
      match readUlebAt d pos1 with
      | none => none
      | some (addr, pos2) =>
        match decodeCatches d pos2 n with
        | none => none
        | some (pairs, pos3) => some ((typeIdx, addr) :: pairs, pos3)

/-- Claim-side parse of `n` handler entries at `pos` — each a signed size
whose sign selects a trailing catch-all address, then `|size|` pairs — with
no range checks. -/
def decodeHandlers (d : List Nat) : Nat → Nat → Option (List CatchHandler × Nat)
  | pos, 0 => some ([], pos)
  | pos, n + 1 =>
    match readSlebAt d pos with
    | none => none
    | some (size, pos1) =>
      match decodeCatches d pos1 size.natAbs with
      | none => none
      | some (pairs, pos2) =>
        if size ≤ 0 then
          match readUlebAt d pos2 with
          | none => none
          | some (addr, pos3) =>
            match decodeHandlers d pos3 n with
            | none => none
            | some (hs, endPos) => some (⟨pos, pairs, some addr⟩ :: hs, endPos)
        else
          match decodeHandlers d pos2 n with
          | none => none
          | some (hs, endPos) => some (⟨pos, pairs, none⟩ :: hs, endPos)

/-- The claim's bounds on decoded handler entries: every type index below
the type-table size and every catch address (including any catch-all
address) below the instruction count. -/
def handlerEntriesValid (insnsSize typeIdsSize : Nat) (hs : List CatchHandler) : Prop :=
  ∀ h ∈ hs, (∀ p ∈ h.catches, p.1 < typeIdsSize ∧ p.2 < insnsSize) ∧
    ∀ a, h.catchAllAddr = some a → a < insnsSize

/-- The claim's conditions on the tries array: non-decreasing,
non-overlapping start addresses below the instruction count, ends at or
below the instruction count, and handler offsets among the tabulated
ones. -/
def triesWellFormed (insnsSize : Nat) (handlerOffs : List Nat) :
    Nat → List DexTry → Prop
  | _, [] => True
  | lastEnd, t :: rest =>
    lastEnd ≤ t.startAddr ∧ t.startAddr < insnsSize ∧
      t.startAddr + t.insnCount ≤ insnsSize ∧ t.handlerOff ∈ handlerOffs ∧
      triesWellFormed insnsSize handlerOffs (t.startAddr + t.insnCount) rest

/-! ## `swapMap` -/

/-- Modelled from the spec: the map item-type tag for the header section.
The 18 numeric tag values live in `DexFile.h`, outside the given sources;
the checks only compare tags for equality and classify them. -/
def kDexTypeHeaderItem : Nat := 0x0000

/-- Modelled from the spec: map item-type tag, string-id table. -/
def kDexTypeStringIdItem : Nat := 0x0001

/-- Modelled from the spec: map item-type tag, type-id table. -/
def kDexTypeTypeIdItem : Nat := 0x0002

/-- Modelled from the spec: map item-type tag, proto-id table. -/
def kDexTypeProtoIdItem : Nat := 0x0003

/-- Modelled from the spec: map item-type tag, field-id table. -/
def kDexTypeFieldIdItem : Nat := 0x0004

/-- Modelled from the spec: map item-type tag, method-id table. -/
def kDexTypeMethodIdItem : Nat := 0x0005

/-- Modelled from the spec: map item-type tag, class-def table. -/
def kDexTypeClassDefItem : Nat := 0x0006

/-- Modelled from the spec: map item-type tag, the map list itself. -/
def kDexTypeMapList : Nat := 0x1000

/-- Modelled from the spec: map item-type tag, type-list item. -/
def kDexTypeTypeList : Nat := 0x1001

/-- Modelled from the spec: map item-type tag, annotation-set-ref list. -/
def kDexTypeAnnotationSetRefList : Nat := 0x1002

/-- Modelled from the spec: map item-type tag, annotation-set item. -/
def kDexTypeAnnotationSetItem : Nat := 0x1003

/-- Modelled from the spec: map item-type tag, class-data item. -/
def kDexTypeClassDataItem : Nat := 0x2000

/-- Modelled from the spec: map item-type tag, executable-code item. -/
def kDexTypeCodeItem : Nat := 0x2001

/-- Modelled from the spec: map item-type tag, string-data item. -/
def kDexTypeStringDataItem : Nat := 0x2002

/-- Modelled from the spec: map item-type tag, debug-info item. -/
def kDexTypeDebugInfoItem : Nat := 0x2003

/-- Modelled from the spec: map item-type tag, annotation item. -/
def kDexTypeAnnotationItem : Nat := 0x2004

/-- Modelled from the spec: map item-type tag, encoded-array item. -/
def kDexTypeEncodedArrayItem : Nat := 0x2005

/-- Modelled from the spec: map item-type tag, annotations directory. -/
def kDexTypeAnnotationsDirectoryItem : Nat := 0x2006

/-- One entry of the DEX map list (`DexMapItem`), with its fields already
in host order (the source's `SWAP_FIELD` calls are value-preserving on the
little-endian layout this model reads); the 2-byte `unused` field is not
consulted. -/
structure DexMapItem where
  type : Nat
  size : Nat
  offset : Nat

/-- The header fields `swapMap` consults (file size, data-region size, and
the six index-table count/offset pairs), post-`swapDexHeader`. -/
structure DexHeaderMapFields where
  fileSize : Nat
  dataSize : Nat
  stringIdsSize : Nat
  stringIdsOff : Nat
  typeIdsSize : Nat
  typeIdsOff : Nat
  protoIdsSize : Nat
  protoIdsOff : Nat
  fieldIdsSize : Nat
  fieldIdsOff : Nat
  methodIdsSize : Nat
  methodIdsOff : Nat
  classDefsSize : Nat
  classDefsOff : Nat

/-- `mapTypeToBitMask` from `DexSwapVerify.c`: each known map item type
maps to its own one-bit mask; unknown types map to 0. -/
def mapTypeToBitMask (mapType : Nat) : Nat :=
  if mapType = kDexTypeHeaderItem then 1 <<< 0
  else if mapType = kDexTypeStringIdItem then 1 <<< 1
  else if mapType = kDexTypeTypeIdItem then 1 <<< 2
  else if mapType = kDexTypeProtoIdItem then 1 <<< 3
  else if mapType = kDexTypeFieldIdItem then 1 <<< 4
  else if mapType = kDexTypeMethodIdItem then 1 <<< 5
  else if mapType = kDexTypeClassDefItem then 1 <<< 6
  else if mapType = kDexTypeMapList then 1 <<< 7
  else if mapType = kDexTypeTypeList then 1 <<< 8
  else if mapType = kDexTypeAnnotationSetRefList then 1 <<< 9
  else if mapType = kDexTypeAnnotationSetItem then 1 <<< 10
  else if mapType = kDexTypeClassDataItem then 1 <<< 11
  else if mapType = kDexTypeCodeItem then 1 <<< 12
  else if mapType = kDexTypeStringDataItem then 1 <<< 13
  else if mapType = kDexTypeDebugInfoItem then 1 <<< 14
  else if mapType = kDexTypeAnnotationItem then 1 <<< 15
  else if mapType = kDexTypeEncodedArrayItem then 1 <<< 16
  else if mapType = kDexTypeAnnotationsDirectoryItem then 1 <<< 17
  else 0

/-- `isDataSectionType` from `DexSwapVerify.c`: every type other than the
header and the six index tables lives in the data section. -/
def isDataSectionType (mapType : Nat) : Bool :=
  if mapType = kDexTypeHeaderItem ∨ mapType = kDexTypeStringIdItem
      ∨ mapType = kDexTypeTypeIdItem ∨ mapType = kDexTypeProtoIdItem
      ∨ mapType = kDexTypeFieldIdItem ∨ mapType = kDexTypeMethodIdItem
      ∨ mapType = kDexTypeClassDefItem
  then false else true

/-- The per-entry loop of `swapMap`, carrying `first`, the previous entry's
offset, the remaining data-item budget (`dataItemsLeft`) and the bit set of
section types seen (`usedBits`); `some` returns the final bit set.  The
total data-item count is tracked by the source only for its log message and
the final tracking-map allocation and is not returned here. -/
def swapMapLoop (hdr : DexHeaderMapFields) :
    List DexMapItem → Bool → Nat → Nat → Nat → Option Nat
  | [], _, _, _, usedBits => some usedBits
  | item :: rest, first, lastOffset, dataItemsLeft, usedBits =>
    if ¬first = true ∧ item.offset ≤ lastOffset then none
    else if hdr.fileSize ≤ item.offset then none
    else if isDataSectionType item.type = true ∧ dataItemsLeft < item.size then none
    else if mapTypeToBitMask item.type = 0 then none
    else if usedBits &&& mapTypeToBitMask item.type ≠ 0 then none
    else
      swapMapLoop hdr rest false item.offset
        (if isDataSectionType item.type then dataItemsLeft - item.size else dataItemsLeft)
        (usedBits ||| mapTypeToBitMask item.type)

/-- `swapMap` from `DexSwapVerify.c`: run the per-entry loop (budget
initialized to the header's declared data-region size), then require a
header entry and a map-list entry, and an entry for each index table whose
header count/offset is non-zero.  The source's final tracking-map
allocation is assumed to succeed; the up-front `CHECK_LIST_SIZE` is a
memory-bounds check on the raw buffer, not represented in this value-level
model of the entry list. -/
def swapMap (hdr : DexHeaderMapFields) (entries : List DexMapItem) : Bool :=
  match swapMapLoop hdr entries true 0 hdr.dataSize 0 with
  | none => false
  | some usedBits =>
    if usedBits &&& mapTypeToBitMask kDexTypeHeaderItem = 0 then false
    else if usedBits &&& mapTypeToBitMask kDexTypeMapList = 0 then false
    else if usedBits &&& mapTypeToBitMask kDexTypeStringIdItem = 0
        ∧ (hdr.stringIdsOff ≠ 0 ∨ hdr.stringIdsSize ≠ 0) then false
    else if usedBits &&& mapTypeToBitMask kDexTypeTypeIdItem = 0
        ∧ (hdr.typeIdsOff ≠ 0 ∨ hdr.typeIdsSize ≠ 0) then false
    else if usedBits &&& mapTypeToBitMask kDexTypeProtoIdItem = 0
        ∧ (hdr.protoIdsOff ≠ 0 ∨ hdr.protoIdsSize ≠ 0) then false
    else if usedBits &&& mapTypeToBitMask kDexTypeFieldIdItem = 0
        ∧ (hdr.fieldIdsOff ≠ 0 ∨ hdr.fieldIdsSize ≠ 0) then false
    else if usedBits &&& mapTypeToBitMask kDexTypeMethodIdItem = 0
        ∧ (hdr.methodIdsOff ≠ 0 ∨ hdr.methodIdsSize ≠ 0) then false
    else if usedBits &&& mapTypeToBitMask kDexTypeClassDefItem = 0
        ∧ (hdr.classDefsOff ≠ 0 ∨ hdr.classDefsSize ≠ 0) then false
    else true

/-- The cumulative declared item count over data-section-typed map
entries. -/
def dataSectionCount (entries : List DexMapItem) : Nat :=
  (entries.map fun e => if isDataSectionType e.type then e.size else 0).sum

/-- The attribute of claim C7: prefix `"html"`, local name `"h1"`. -/
def htmlH1 : ExpatElementName :=
  ⟨"http://x".data, "h1".data, "html".data⟩

/-- A non-array class part way through verification, used for C9. -/
def verifyingClass : ClassObjectInfo :=
  ⟨"Lx;".data, ClassStatus.verifying, false⟩

/-- A header whose magic, version and size fields are well formed but whose
stored checksum (zero) disagrees with the Adler-32 of its contents. -/
def dexPreludeSample : List Nat :=
  dexMagic ++ dexMagicVers ++ [0, 0, 0, 0] ++ List.replicate 20 0 ++ [36, 0, 0, 0]

/-- C6: the outgoing map (`tweakSlot`) sends a variable named exactly
`"this"` to slot 0, any other variable at true register 0 to the sentinel
slot 1000, and every other register to itself; the incoming map
(`untweakSlot`) sends slot 1000 to register 0, slot 0 to
`registersSize - insSize`, and every other slot to itself; in particular
for `registersSize = 5, insSize = 2` a local named `"this"` at register 3
is reported as slot 0 and slot 0 resolves back to register 3, and slot
1000 resolves back to register 0. -/
theorem tweakSlot_untweakSlot_roundtrip :
    (∀ slot : Int, tweakSlot slot "this" = 0) ∧
    (∀ name : String, name ≠ "this" → tweakSlot 0 name = 1000) ∧
    (∀ (slot : Int) (name : String), name ≠ "this" → slot ≠ 0 →
      tweakSlot slot name = slot) ∧
    (∀ registersSize insSize : Nat, untweakSlot 1000 registersSize insSize = 0) ∧
    (∀ registersSize insSize : Nat,
      untweakSlot 0 registersSize insSize = (registersSize : Int) - insSize) ∧
    (∀ (slot : Int) (registersSize insSize : Nat), slot ≠ 1000 → slot ≠ 0 →
      untweakSlot slot registersSize insSize = slot) ∧
    tweakSlot 3 "this" = 0 ∧ untweakSlot 0 5 2 = 3 ∧ untweakSlot 1000 5 2 = 0 := by
  refine ⟨fun slot => ?_, fun name h => ?_, fun slot name h h0 => ?_,
    fun rs ins => ?_, fun rs ins => ?_, fun slot rs ins h1000 h0 => ?_,
    by decide, by decide, by decide⟩
  · simp [tweakSlot]
  · simp [tweakSlot, h, kSlot0Sub]
  · simp [tweakSlot, h, h0]
  · simp [untweakSlot, kSlot0Sub]
  · simp [untweakSlot, kSlot0Sub]
  · simp [untweakSlot, kSlot0Sub, h1000, h0]

/-- C6 witness: the remapping theorem applied at register 0 with the
non-`"this"` name `"x"`. -/
theorem tweakSlot_untweakSlot_roundtrip_witness : tweakSlot 0 "x" = 1000 :=
  tweakSlot_untweakSlot_roundtrip.2.1 "x" (by decide)


/-- C7 counterexample: the claim says a query for `"h1"` with no colon
matches *only when the attribute has no prefix*, but `matchesQName` falls
back to local-name comparison whenever the query has no colon, so the
query `"h1"` matches the attribute with prefix `"html"`. -/
theorem matchesQName_no_colon_ignores_this_prefix :
    matchesQName htmlH1 "h1".data = true := by decide

/-- C7 amended: a query `"html:h1"` matches; a query `"h1"` with no colon
matches by local-name comparison regardless of whether the attribute has a
prefix; a query `"xyz:h1"` does not match; and in general qualified-name
matching falls back to comparing local names exactly when the query
contains no colon or the attribute has no prefix. -/
theorem matchesQName_characterization :
    (∀ (e : ExpatElementName) (q : List Char),
      splitAtLastColon q = none ∨ e.mPfx = [] →
        (matchesQName e q = true ↔ q = e.mLocalName)) ∧
    matchesQName htmlH1 "html:h1".data = true ∧
    matchesQName htmlH1 "h1".data = true ∧
    matchesQName ⟨"http://x".data, "h1".data, []⟩ "h1".data = true ∧
    matchesQName htmlH1 "xyz:h1".data = false := by
  refine ⟨fun e q h => ?_, by decide, by decide, by decide, by decide⟩
  rcases h with h | h
  · simp [matchesQName, h]
  · cases hs : splitAtLastColon q <;> simp [matchesQName, hs, h]

/-- C7 witness: the fallback rule of the amended claim applied to a
colon-free query and an attribute with a nonempty prefix. -/
theorem matchesQName_characterization_witness :
    matchesQName htmlH1 "h1".data = true ↔ "h1".data = htmlH1.mLocalName :=
  matchesQName_characterization.1 htmlH1 "h1".data (Or.inl (by decide))


/-- C9 counterexample: a non-array class that is not in the error state and
not yet verified is reported with the fixed verified+prepared+initialized
status, not with its actual verified status as the claim says. -/
theorem dvmDbgGetClassInfo_not_actual_status :
    (dvmDbgGetClassInfo verifyingClass).2
        = (CS_VERIFIED ||| CS_PREPARED ||| CS_INITIALIZED) ∧
      claimedClassInfoStatus verifyingClass = CS_PREPARED ∧
      (dvmDbgGetClassInfo verifyingClass).2 ≠ claimedClassInfoStatus verifyingClass := by
  decide

/-- C9 amended: a class whose descriptor begins with `'['` is reported with
the fixed verified+prepared status and the array type tag; every other
class is reported with the error status when it is in the error state and
with the fixed verified+prepared+initialized status otherwise (its actual
verification progress is not consulted). -/
theorem dvmDbgGetClassInfo_characterization :
    ∀ clazz : ClassObjectInfo,
      (clazz.descriptor.headD ' ' = '[' →
        dvmDbgGetClassInfo clazz = (TypeTag.ttArray, CS_VERIFIED ||| CS_PREPARED)) ∧
      (clazz.descriptor.headD ' ' ≠ '[' → clazz.status = ClassStatus.error →
        (dvmDbgGetClassInfo clazz).2 = CS_ERROR) ∧
      (clazz.descriptor.headD ' ' ≠ '[' → clazz.status ≠ ClassStatus.error →
        (dvmDbgGetClassInfo clazz).2
          = (CS_VERIFIED ||| CS_PREPARED ||| CS_INITIALIZED)) := by
  intro clazz
  refine ⟨fun h => ?_, fun h he => ?_, fun h he => ?_⟩
  · simp only [List.headD] at h
    simp [dvmDbgGetClassInfo, List.headD, h]
  · simp only [List.headD] at h
    simp [dvmDbgGetClassInfo, List.headD, h, he]
  · simp only [List.headD] at h
    simp [dvmDbgGetClassInfo, List.headD, h, he]

/-- C9 witness: the amended characterization applied to the array class
`"[I"` and to the concrete non-error class used above. -/
theorem dvmDbgGetClassInfo_characterization_witness :
    dvmDbgGetClassInfo ⟨['[', 'I'], ClassStatus.verified, false⟩
        = (TypeTag.ttArray, CS_VERIFIED ||| CS_PREPARED) ∧
      (dvmDbgGetClassInfo verifyingClass).2
        = (CS_VERIFIED ||| CS_PREPARED ||| CS_INITIALIZED) :=
  ⟨(dvmDbgGetClassInfo_characterization _).1 (by decide),
    (dvmDbgGetClassInfo_characterization verifyingClass).2.2 (by decide) (by decide)⟩


/-- A bit set conjunction-disjoint from a union is disjoint from both
parts. -/
theorem land_lor_eq_zero {a b c : Nat} (h : a &&& (b ||| c) = 0) :
    a &&& b = 0 ∧ a &&& c = 0 := by
  constructor <;>
  · refine Nat.zero_of_testBit_eq_false fun i => ?_
    have hi : (a &&& (b ||| c)).testBit i = false := by
      rw [h]
      exact Nat.zero_testBit i
    rw [Nat.testBit_land, Nat.testBit_lor] at hi
    rw [Nat.testBit_land]
    cases ha : a.testBit i <;> cases hb : b.testBit i <;> cases hc : c.testBit i <;>
      simp_all

/-- `&&&` on `Nat` is idempotent. -/
theorem land_idem (a : Nat) : a &&& a = a := by
  refine Nat.eq_of_testBit_eq fun i => ?_
  rw [Nat.testBit_land, Bool.and_self]

/-- Soundness of the `swapMap` entry loop: a successful run implies every
entry's offset is below the declared file size and its type recognized and
new, the offsets strictly ascend, the data-section item counts fit the
remaining budget, and the entries' type masks are pairwise disjoint. -/
theorem swapMapLoop_sound (hdr : DexHeaderMapFields) :
    ∀ (entries : List DexMapItem) (first : Bool) (lastOffset dataItemsLeft usedBits ub : Nat),
      swapMapLoop hdr entries first lastOffset dataItemsLeft usedBits = some ub →
      (∀ e ∈ entries, e.offset < hdr.fileSize ∧ mapTypeToBitMask e.type ≠ 0 ∧
        mapTypeToBitMask e.type &&& usedBits = 0) ∧
      (first = false → List.Chain (· < ·) lastOffset (entries.map DexMapItem.offset)) ∧
      List.Chain' (· < ·) (entries.map DexMapItem.offset) ∧
      dataSectionCount entries ≤ dataItemsLeft ∧
      List.Pairwise
        (fun a b => mapTypeToBitMask a.type &&& mapTypeToBitMask b.type = 0) entries := by
  intro entries
  induction entries with
  | nil =>
    intro first lastOffset dataItemsLeft usedBits ub _
    exact ⟨by simp, fun _ => List.Chain.nil, trivial, by simp [dataSectionCount],
      List.Pairwise.nil⟩
  | cons item rest ih =>
    intro first lastOffset dataItemsLeft usedBits ub h
    rw [swapMapLoop] at h
    by_cases c1 : ¬first = true ∧ item.offset ≤ lastOffset
    · rw [if_pos c1] at h
      simp at h
    · rw [if_neg c1] at h
      by_cases c2 : hdr.fileSize ≤ item.offset
      · rw [if_pos c2] at h
        simp at h
      · rw [if_neg c2] at h
        by_cases c3 : isDataSectionType item.type = true ∧ dataItemsLeft < item.size
        · rw [if_pos c3] at h
          simp at h
        · rw [if_neg c3] at h
          by_cases c4 : mapTypeToBitMask item.type = 0
          · rw [if_pos c4] at h
            simp at h
          · rw [if_neg c4] at h
            by_cases c5 : usedBits &&& mapTypeToBitMask item.type ≠ 0
            · rw [if_pos c5] at h
              simp at h
            · rw [if_neg c5] at h
              obtain ⟨ih1, ih2, _, ih4, ih5⟩ :=
                ih false item.offset
                  (if isDataSectionType item.type then dataItemsLeft - item.size
                    else dataItemsLeft)
                  (usedBits ||| mapTypeToBitMask item.type) ub h
              have hrest : ∀ e ∈ rest,
                  mapTypeToBitMask e.type &&& usedBits = 0 ∧
                  mapTypeToBitMask e.type &&& mapTypeToBitMask item.type = 0 :=
                fun e he => land_lor_eq_zero (ih1 e he).2.2
              refine ⟨?_, ?_, ?_, ?_, ?_⟩
              · intro e he
                rcases List.mem_cons.mp he with rfl | he'
                · exact ⟨Nat.lt_of_not_le c2, c4, by
                    rw [Nat.land_comm]
                    exact Classical.byContradiction fun hne => c5 hne⟩
                · exact ⟨(ih1 e he').1, (ih1 e he').2.1, (hrest e he').1⟩
              · intro hf
                have hlt : lastOffset < item.offset := by
                  rcases Classical.em (item.offset ≤ lastOffset) with hle | hgt
                  · exact absurd ⟨by simp [hf], hle⟩ c1
                  · exact Nat.lt_of_not_le hgt
                exact List.Chain.cons hlt (ih2 rfl)
              · exact ih2 rfl
              · by_cases hd : isDataSectionType item.type = true
                · have hsz : item.size ≤ dataItemsLeft := by
                    rcases Classical.em (dataItemsLeft < item.size) with hlt | hge
                    · exact absurd ⟨hd, hlt⟩ c3
                    · exact Nat.le_of_not_lt hge
                  rw [if_pos hd] at ih4
                  simp only [dataSectionCount, List.map_cons, List.sum_cons, hd, if_true]
                  simp only [dataSectionCount] at ih4
                  omega
                · rw [if_neg hd] at ih4
                  simp only [dataSectionCount, List.map_cons, List.sum_cons,
                    if_neg hd]
                  simp only [dataSectionCount] at ih4
                  omega
              · exact List.Pairwise.cons
                  (fun e he => by rw [Nat.land_comm]; exact (hrest e he).2) ih5

/-- C2: `swapMap` fails — and with it the whole verification, before the
structural pass visits any data-section item (`dexFixByteOrdering` runs
`swapEverythingButHeaderAndMap` only if `swapMap` returned true) —
whenever the map's entries are not strictly ascending by offset, or some
entry's offset is not below the declared file size, or some entry's type
is unrecognized or appears twice, or the cumulative declared item count
over data-section-typed entries exceeds the header's declared data-region
size. -/
theorem swapMap_rejects (hdr : DexHeaderMapFields) (entries : List DexMapItem)
    (h : ¬ List.Chain' (· < ·) (entries.map DexMapItem.offset)
      ∨ (∃ e ∈ entries, hdr.fileSize ≤ e.offset)
      ∨ (∃ e ∈ entries, mapTypeToBitMask e.type = 0)
      ∨ ¬ List.Pairwise (fun a b : DexMapItem => a.type ≠ b.type) entries
      ∨ hdr.dataSize < dataSectionCount entries) :
    swapMap hdr entries = false := by
  cases hl : swapMapLoop hdr entries true 0 hdr.dataSize 0 with
  | none => simp [swapMap, hl]
  | some ub =>
    exfalso
    obtain ⟨h1, _, h3, h4, h5⟩ := swapMapLoop_sound hdr entries true 0 hdr.dataSize 0 ub hl
    rcases h with hA | hB | hC | hD | hE
    · exact hA h3
    · obtain ⟨e, he, hge⟩ := hB
      exact absurd (h1 e he).1 (Nat.not_lt.mpr hge)
    · obtain ⟨e, he, hz⟩ := hC
      exact (h1 e he).2.1 hz
    · refine hD (h5.imp_of_mem ?_)
      intro a b ha hb hr heq
      have hmask : mapTypeToBitMask a.type = mapTypeToBitMask b.type := by rw [heq]
      rw [← hmask, land_idem] at hr
      exact (h1 a ha).2.1 hr
    · exact absurd h4 (Nat.not_le.mpr hE)

/-- C2 witness: a map with a single code-item entry declaring 5 data items
against a header whose data region is empty. -/
theorem swapMap_rejects_witness :
    swapMap ⟨200, 0, 0, 0, 0, 0, 0, 0, 0, 0, 0, 0, 0, 0⟩
      [⟨kDexTypeCodeItem, 5, 50⟩] = false :=
  swapMap_rejects _ _ (Or.inr (Or.inr (Or.inr (Or.inr (by decide)))))

/-! ## Theorems for claims C1, C4, C10 -/

/-- C4 counterexample: the claim's "accepted" payload — declared
`utf16_size = 1`, the two-byte modified-UTF-8 encoding of code point
`0x7F` (`0xC1 0xBF`), then the zero terminator — is in fact rejected:
the decoder computes `value = 0x7F` and the non-canonical-encoding check
`value != 0 && value < 0x80` fails the item. -/
theorem stringData_twoByte7F_rejected :
    intraVerifyStringDataItem [0x01, 0xc1, 0xbf, 0x00] = none := by decide

/-- C4 amended: with declared `utf16_size = 1`, the two-byte encoding of
code point `0x80` (`0xC2 0x80`, the smallest code point with a legal
two-byte encoding) followed by the zero terminator is accepted; the same
declared size with a payload terminating (zero byte) one logical unit
early is rejected as shorter than indicated; one with a non-zero byte
where the terminating zero should be is rejected as longer than indicated;
and the two-byte encoding of `0x7F` is rejected as a non-canonical
encoding. -/
theorem stringData_edge_cases :
    intraVerifyStringDataItem [0x01, 0xc2, 0x80, 0x00] = some [] ∧
      intraVerifyStringDataItem [0x01, 0x00] = none ∧
      intraVerifyStringDataItem [0x01, 0xc2, 0x80, 0x41] = none ∧
      intraVerifyStringDataItem [0x01, 0xc1, 0xbf, 0x00] = none := by decide

/-- Any item visit whose alignment gap holds a non-zero byte fails the
whole section iteration. -/
theorem iterateSection_gap_none (file : List Nat) (fileLen : Nat)
    (func : Nat → Option Nat) (alignment offset count : Nat)
    (hc : 0 < count)
    (hgap : ∃ j, offset ≤ j ∧ j < alignUp offset alignment ∧ file.getD j 0 ≠ 0) :
    iterateSection file fileLen func alignment offset count = none := by
  obtain ⟨j, hj1, hj2, hj3⟩ := hgap
  have hlt : offset < alignUp offset alignment := Nat.lt_of_le_of_lt hj1 hj2
  have hpad : iterateSectionPadOk file offset (alignUp offset alignment) = false := by
    rw [iterateSectionPadOk, List.all_eq_false]
    refine ⟨j, ?_, by simpa using hj3⟩
    rw [List.mem_range'_1]
    omega
  cases count with
  | zero => omega
  | succ c =>
    simp only [iterateSection]
    rw [if_pos ⟨hlt, Or.inr hpad⟩]

/-- C10: zero padding is enforced before every item of a section, so also
between consecutive items within one section: (1) whenever the bytes
skipped from the current offset to the next alignment boundary contain a
non-zero byte, the whole iteration fails; (2) in particular, when an item
is visited and a later gap — from that item's end offset to the alignment
boundary of the next item of the same section — contains a non-zero byte,
the whole iteration fails. -/
theorem iterateSection_interItem_padding :
    (∀ (file : List Nat) (fileLen : Nat) (func : Nat → Option Nat)
        (alignment offset count : Nat),
      0 < count →
      (∃ j, offset ≤ j ∧ j < alignUp offset alignment ∧ file.getD j 0 ≠ 0) →
      iterateSection file fileLen func alignment offset count = none) ∧
    (∀ (file : List Nat) (fileLen : Nat) (func : Nat → Option Nat)
        (alignment offset count endOffset : Nat),
      func (alignUp offset alignment) = some endOffset →
      (∃ j, endOffset ≤ j ∧ j < alignUp endOffset alignment ∧ file.getD j 0 ≠ 0) →
      iterateSection file fileLen func alignment offset (count + 2) = none) := by
  refine ⟨iterateSection_gap_none, ?_⟩
  intro file fileLen func alignment offset count endOffset hfunc hgap
  have h1 := iterateSection_gap_none file fileLen func alignment endOffset
    (count + 1) (Nat.succ_pos _) hgap
  simp only [iterateSection, hfunc]
  split
  · rfl
  · split
    · rfl
    · exact h1

/-- C10 witness: a two-item section with alignment 2 whose first item ends
at offset 1, where the byte skipped to realign (value 5) is non-zero. -/
theorem iterateSection_interItem_padding_witness :
    iterateSection [7, 5, 9, 9] 4 (fun o => some (o + 1)) 2 0 2 = none :=
  iterateSection_interItem_padding.2 [7, 5, 9, 9] 4 (fun o => some (o + 1)) 2 0 0 1
    rfl ⟨1, by decide, by decide, by decide⟩

/-- C1: before any in-place header swapping, `dexFixByteOrdering` fails
exactly on (in order): a magic/version mismatch in the first 8 bytes; a
`len` smaller than the declared file size (byte-swapped only for the
comparison, larger `len` merely warns); an Adler-32 over the pre-swap
bytes from just after the checksum field through the declared file size
that differs from the stored (byte-swapped) checksum field.  Stated for
declared sizes below `2^31`, where the source's `(int)` cast of the size
is value-preserving. -/
theorem dexFixByteOrdering_prelude_checks (addr : List Nat) (len : Nat)
    (hsz : read32le addr 32 < 2 ^ 31) :
    dexFixPrelude addr len = false ↔
      (¬ (addr.take 4 = dexMagic ∧ (addr.drop 4).take 4 = dexMagicVers))
      ∨ ((addr.take 4 = dexMagic ∧ (addr.drop 4).take 4 = dexMagicVers) ∧
          len < read32le addr 32)
      ∨ ((addr.take 4 = dexMagic ∧ (addr.drop 4).take 4 = dexMagicVers) ∧
          read32le addr 32 ≤ len ∧
          adler32 (dexChecksumRegion addr) ≠ read32le addr 8) := by
  have hmod : read32le addr 32 % 2 ^ 32 = read32le addr 32 :=
    Nat.mod_eq_of_lt (hsz.trans (by norm_num))
  have ht : toInt32 (read32le addr 32) = (read32le addr 32 : Int) := by
    rw [toInt32]
    simp only [hmod]
    rw [if_pos hsz]
  have hlen : ((len : Int) < toInt32 (read32le addr 32)) ↔ len < read32le addr 32 := by
    rw [ht]
    exact Int.ofNat_lt
  rw [dexFixPrelude]
  by_cases h1 : addr.take 4 = dexMagic
  · rw [if_neg (not_not_intro h1)]
    by_cases h2 : (addr.drop 4).take 4 = dexMagicVers
    · rw [if_neg (not_not_intro h2)]
      by_cases h3 : (len : Int) < toInt32 (read32le addr 32)
      · rw [if_pos h3]
        exact iff_of_true rfl (Or.inr (Or.inl ⟨⟨h1, h2⟩, hlen.mp h3⟩))
      · rw [if_neg h3]
        have h3n : read32le addr 32 ≤ len :=
          Nat.le_of_not_lt fun h => h3 (hlen.mpr h)
        by_cases h4 : adler32 (dexChecksumRegion addr) ≠ read32le addr 8
        · rw [if_pos h4]
          exact iff_of_true rfl (Or.inr (Or.inr ⟨⟨h1, h2⟩, h3n, h4⟩))
        · rw [if_neg h4]
          refine iff_of_false (by simp) ?_
          rintro (h | ⟨_, hlt⟩ | ⟨_, _, hne⟩)
          · exact h ⟨h1, h2⟩
          · exact h3 (hlen.mpr hlt)
          · exact h4 hne
    · rw [if_pos h2]
      exact iff_of_true rfl (Or.inl fun h => h2 h.2)
  · rw [if_pos h1]
    exact iff_of_true rfl (Or.inl fun h => h1 h.1)


/-- C1 witness: the prelude characterization applied to the concrete
36-byte buffer above, whose checksum field mismatches. -/
theorem dexFixByteOrdering_prelude_checks_witness :
    dexFixPrelude dexPreludeSample 36 = false :=
  (dexFixByteOrdering_prelude_checks dexPreludeSample 36 (by decide)).mpr
    (Or.inr (Or.inr ⟨⟨by decide, by decide⟩, by decide, by decide⟩))

/-! ## Theorems for claims C5, C8 -/

/-- C5: `dvmDbgInvokeMethod` returns the invalid-thread error when the
target thread is not on the thread list or its invocation-request slot is
not marked ready, and the thread-suspended error when the (found, ready)
target's suspend counter exceeds 1 — in each case leaving the thread list
untouched: no request fields are written and `invokeNeeded` is never
set. -/
theorem dvmDbgInvokeMethod_rejections :
    ∀ (threads : List VmThread) (threadId objectId classId methodId numArgs : Nat)
      (argArray : List Nat) (options : Nat),
      (threadObjToThread threads threadId = none →
        dvmDbgInvokeMethod threads threadId objectId classId methodId numArgs
            argArray options
          = (JdwpError.errInvalidThread, threads)) ∧
      (∀ t, threadObjToThread threads threadId = some t →
        t.invokeReq.ready = false →
        dvmDbgInvokeMethod threads threadId objectId classId methodId numArgs
            argArray options
          = (JdwpError.errInvalidThread, threads)) ∧
      (∀ t, threadObjToThread threads threadId = some t →
        t.invokeReq.ready = true → 1 < t.suspendCount →
        dvmDbgInvokeMethod threads threadId objectId classId methodId numArgs
            argArray options
          = (JdwpError.errThreadSuspended, threads)) := by
  intro threads threadId objectId classId methodId numArgs argArray options
  refine ⟨fun h => ?_, fun t h hr => ?_, fun t h hr hs => ?_⟩
  · rw [dvmDbgInvokeMethod, h]
  · rw [dvmDbgInvokeMethod, h]
    simp [hr]
  · rw [dvmDbgInvokeMethod, h]
    simp [hr, hs]

/-- C5 witness: a ready thread with suspend counter 2 is rejected with the
thread-suspended error, its request slot untouched. -/
theorem dvmDbgInvokeMethod_rejections_witness :
    dvmDbgInvokeMethod [⟨7, 2, ⟨true, false, 0, 0, 0, 0, 0, [], 0⟩⟩] 7 1 2 3 0 [] 0
      = (JdwpError.errThreadSuspended,
          [⟨7, 2, ⟨true, false, 0, 0, 0, 0, 0, [], 0⟩⟩]) :=
  (dvmDbgInvokeMethod_rejections [⟨7, 2, ⟨true, false, 0, 0, 0, 0, 0, [], 0⟩⟩]
      7 1 2 3 0 [] 0).2.2
    ⟨7, 2, ⟨true, false, 0, 0, 0, 0, 0, [], 0⟩⟩ rfl rfl (by decide)

mutual

/-- Running the handlers over one subtree emits its canonical trace and
restores the stack. -/
theorem runTree_trace (t : XmlTree) (stack : List Nat) :
    runTree t stack = (treeTrace t, stack) := by
  cases t with
  | node e children =>
    rw [runTree, treeTrace, runForest_trace children]
    simp [startElementStep, endElementStep, stringStackPush, stringStackPop]

/-- Running the handlers over sibling subtrees emits their canonical
traces in order and restores the stack. -/
theorem runForest_trace (ts : List XmlTree) (stack : List Nat) :
    runForest ts stack = (forestTrace ts, stack) := by
  cases ts with
  | nil => rw [runForest, forestTrace]
  | cons t ts' =>
    rw [runForest, forestTrace, runTree_trace t, runForest_trace ts']

end

/-- C8: for every well-formed nested element structure, the handlers —
start-element pushing qualified name, URI, then local name, end-element
popping local name, URI, then qualified name — leave the name stack as
they found it and give every end-element listener invocation exactly the
three string handles of its matching start-element invocation, in strictly
nested last-pushed-first-popped order (the canonical trace `treeTrace`). -/
theorem startEndElement_stack_discipline :
    ∀ (t : XmlTree) (stack : List Nat), runTree t stack = (treeTrace t, stack) :=
  fun t stack => runTree_trace t stack

/-! ## Theorems for claim C3 -/

/-- A successful catch-pair walk decodes to pairs within bounds. -/
theorem checkHandlerCatches_sound (d : List Nat) (insnsSize typeIdsSize : Nat) :
    ∀ (n pos pos2 : Nat),
      checkHandlerCatches d insnsSize typeIdsSize pos n = some pos2 →
      ∃ pairs, decodeCatches d pos n = some (pairs, pos2) ∧
        ∀ p ∈ pairs, p.1 < typeIdsSize ∧ p.2 < insnsSize := by
  intro n
  induction n with
  | zero =>
    intro pos pos2 h
    rw [checkHandlerCatches] at h
    obtain rfl := Option.some.inj h
    exact ⟨[], rfl, by simp⟩
  | succ n ih =>
    intro pos pos2 h
    rw [checkHandlerCatches] at h
    cases hr1 : readUlebAt d pos with
    | none =>
      simp only [hr1] at h
      exact Option.noConfusion h
    | some vp1 =>
      obtain ⟨typeIdx, pos1⟩ := vp1
      simp only [hr1] at h
      by_cases c1 : typeIdsSize ≤ typeIdx
      · rw [if_pos c1] at h
        exact Option.noConfusion h
      · rw [if_neg c1] at h
        cases hr2 : readUlebAt d pos1 with
        | none =>
          simp only [hr2] at h
          exact Option.noConfusion h
        | some vp2 =>
          obtain ⟨addr, posb⟩ := vp2
          simp only [hr2] at h
          by_cases c2 : insnsSize ≤ addr
          · rw [if_pos c2] at h
            exact Option.noConfusion h
          · rw [if_neg c2] at h
            obtain ⟨pairs, hd, hv⟩ := ih posb pos2 h
            refine ⟨(typeIdx, addr) :: pairs, ?_, ?_⟩
            · rw [decodeCatches]
              simp only [hr1, hr2, hd]
            · intro p hp
              rcases List.mem_cons.mp hp with rfl | hp'
              · exact ⟨Nat.lt_of_not_le c1, Nat.lt_of_not_le c2⟩
              · exact hv p hp'

/-- A successful handler-list walk decodes to entries within bounds whose
start offsets are exactly the recorded ones. -/
theorem setHandlerOffsAndVerify_sound (d : List Nat) (insnsSize typeIdsSize : Nat) :
    ∀ (n pos : Nat) (offs : List Nat) (endOffset : Nat),
      setHandlerOffsAndVerify d insnsSize typeIdsSize pos n = some (offs, endOffset) →
      ∃ hs, decodeHandlers d pos n = some (hs, endOffset) ∧
        offs = hs.map CatchHandler.off ∧
        handlerEntriesValid insnsSize typeIdsSize hs := by
  intro n
  induction n with
  | zero =>
    intro pos offs endOffset h
    rw [setHandlerOffsAndVerify] at h
    cases h
    exact ⟨[], rfl, rfl, by intro x hx; cases hx⟩
  | succ n ih =>
    intro pos offs endOffset h
    rw [setHandlerOffsAndVerify] at h
    cases hr1 : readSlebAt d pos with
    | none =>
      simp only [hr1] at h
      exact Option.noConfusion h
    | some vp1 =>
      obtain ⟨size, pos1⟩ := vp1
      simp only [hr1] at h
      by_cases c1 : size < -65536 ∨ 65536 < size
      · rw [if_pos c1] at h
        exact Option.noConfusion h
      · rw [if_neg c1] at h
        cases hr2 : checkHandlerCatches d insnsSize typeIdsSize pos1 size.natAbs with
        | none =>
          simp only [hr2] at h
          exact Option.noConfusion h
        | some pos2 =>
          simp only [hr2] at h
          obtain ⟨pairs, hdec, hpairs⟩ :=
            checkHandlerCatches_sound d insnsSize typeIdsSize size.natAbs pos1 pos2 hr2
          by_cases c2 : size ≤ 0
          · rw [if_pos c2] at h
            cases hr3 : readUlebAt d pos2 with
            | none =>
              simp only [hr3] at h
              exact Option.noConfusion h
            | some vp3 =>
              obtain ⟨addr, pos3⟩ := vp3
              simp only [hr3] at h
              by_cases c3 : insnsSize ≤ addr
              · rw [if_pos c3] at h
                exact Option.noConfusion h
              · rw [if_neg c3] at h
                cases hr4 : setHandlerOffsAndVerify d insnsSize typeIdsSize pos3 n with
                | none =>
                  simp only [hr4] at h
                  exact Option.noConfusion h
                | some vp4 =>
                  obtain ⟨offs', endOffset'⟩ := vp4
                  simp only [hr4] at h
                  cases h
                  obtain ⟨hs, hdh, hoffs, hvalid⟩ := ih pos3 offs' endOffset hr4
                  refine ⟨⟨pos, pairs, some addr⟩ :: hs, ?_, ?_, ?_⟩
                  · rw [decodeHandlers]
                    simp only [hr1, hdec, hr3, hdh, if_pos c2]
                  · simp [hoffs]
                  · intro x hx
                    rcases List.mem_cons.mp hx with rfl | hx'
                    · exact ⟨hpairs, fun a ha =>
                        Option.some.inj ha ▸ Nat.lt_of_not_le c3⟩
                    · exact hvalid x hx'
          · rw [if_neg c2] at h
            cases hr4 : setHandlerOffsAndVerify d insnsSize typeIdsSize pos2 n with
            | none =>
              simp only [hr4] at h
              exact Option.noConfusion h
            | some vp4 =>
              obtain ⟨offs', endOffset'⟩ := vp4
              simp only [hr4] at h
              cases h
              obtain ⟨hs, hdh, hoffs, hvalid⟩ := ih pos2 offs' endOffset hr4
              refine ⟨⟨pos, pairs, none⟩ :: hs, ?_, ?_, ?_⟩
              · rw [decodeHandlers]
                simp only [hr1, hdec, hdh, if_neg c2]
              · simp [hoffs]
              · intro x hx
                rcases List.mem_cons.mp hx with rfl | hx'
                · exact ⟨hpairs, fun a ha => Option.noConfusion ha⟩
                · exact hvalid x hx'

/-- A successful try-range walk satisfies the claim's try conditions. -/
theorem checkTries_sound (insnsSize : Nat) (handlerOffs : List Nat) :
    ∀ (tries : List DexTry) (lastEnd : Nat),
      checkTries insnsSize handlerOffs lastEnd tries = true →
      triesWellFormed insnsSize handlerOffs lastEnd tries := by
  intro tries
  induction tries with
  | nil =>
    intro lastEnd _
    trivial
  | cons t rest ih =>
    intro lastEnd h
    rw [checkTries] at h
    by_cases c1 : t.startAddr < lastEnd
    · rw [if_pos c1] at h
      exact Bool.noConfusion h
    · rw [if_neg c1] at h
      by_cases c2 : insnsSize ≤ t.startAddr
      · rw [if_pos c2] at h
        exact Bool.noConfusion h
      · rw [if_neg c2] at h
        by_cases c3 : ¬ handlerOffs.contains t.handlerOff
        · rw [if_pos c3] at h
          exact Bool.noConfusion h
        · rw [if_neg c3] at h
          by_cases c4 : insnsSize < t.startAddr + t.insnCount
          · rw [if_pos c4] at h
            exact Bool.noConfusion h
          · rw [if_neg c4] at h
            have hmem : t.handlerOff ∈ handlerOffs := by
              simpa using not_not.mp c3
            exact ⟨Nat.le_of_not_lt c1, Nat.lt_of_not_le c2, Nat.le_of_not_lt c4,
              hmem, ih _ h⟩

/-- C3: whenever `swapTriesAndCatches` succeeds on an executable-code
item's try/catch region, the handlers count read first lies strictly
between 0 and 65536, the handler list decodes with every type index below
the type-table size and every catch address (including catch-all
addresses) below the instruction count, and the tries array has
non-decreasing, non-overlapping start addresses below the instruction
count, ends at or below the instruction count, and handler offsets drawn
from the offsets tabulated while walking the handler list; equivalently,
an item violating any of these conditions fails. -/
theorem swapTriesAndCatches_sound (insnsSize typeIdsSize : Nat)
    (tries : List DexTry) (d : List Nat) (endOffset : Nat)
    (h : swapTriesAndCatches insnsSize typeIdsSize tries d = some endOffset) :
    ∃ handlersSize pos0 handlers,
      readUlebAt d 0 = some (handlersSize, pos0) ∧
      0 < handlersSize ∧ handlersSize < 65536 ∧
      decodeHandlers d pos0 handlersSize = some (handlers, endOffset) ∧
      handlerEntriesValid insnsSize typeIdsSize handlers ∧
      triesWellFormed insnsSize (handlers.map CatchHandler.off) 0 tries := by
  rw [swapTriesAndCatches] at h
  cases hr1 : readUlebAt d 0 with
  | none =>
    simp only [hr1] at h
    exact Option.noConfusion h
  | some vp1 =>
    obtain ⟨handlersSize, pos0⟩ := vp1
    simp only [hr1] at h
    by_cases c1 : handlersSize = 0 ∨ 65536 ≤ handlersSize
    · rw [if_pos c1] at h
      exact Option.noConfusion h
    · rw [if_neg c1] at h
      cases hr2 : setHandlerOffsAndVerify d insnsSize typeIdsSize pos0 handlersSize with
      | none =>
        simp only [hr2] at h
        exact Option.noConfusion h
      | some vp2 =>
        obtain ⟨handlerOffs, endOffset'⟩ := vp2
        simp only [hr2] at h
        by_cases c2 : checkTries insnsSize handlerOffs 0 tries = true
        · rw [if_pos c2] at h
          obtain rfl := Option.some.inj h
          obtain ⟨hs, hdh, hoffs, hvalid⟩ :=
            setHandlerOffsAndVerify_sound d insnsSize typeIdsSize
              handlersSize pos0 handlerOffs endOffset' hr2
          refine ⟨handlersSize, pos0, hs, rfl, ?_, ?_, hdh, hvalid, ?_⟩
          · exact Nat.pos_of_ne_zero fun hz => c1 (Or.inl hz)
          · exact Nat.lt_of_not_le fun hge => c1 (Or.inr hge)
          · rw [← hoffs]
            exact checkTries_sound insnsSize handlerOffs tries 0 c2
        · rw [if_neg c2] at h
          exact Option.noConfusion h

/-- C3 witness: the soundness theorem applied to a concrete accepted
region — one handler entry (size 1, one catch pair with type index 0 and
address 1) at offset 1 and a single try `[0, 2)` pointing at handler
offset 1, in a 4-unit code item against a 2-entry type table. -/
theorem swapTriesAndCatches_sound_witness :
    ∃ handlersSize pos0 handlers,
      readUlebAt [1, 1, 0, 1] 0 = some (handlersSize, pos0) ∧
      0 < handlersSize ∧ handlersSize < 65536 ∧
      decodeHandlers [1, 1, 0, 1] pos0 handlersSize = some (handlers, 4) ∧
      handlerEntriesValid 4 2 handlers ∧
      triesWellFormed 4 (handlers.map CatchHandler.off) 0 [⟨0, 2, 1⟩] :=
  swapTriesAndCatches_sound 4 2 [⟨0, 2, 1⟩] [1, 1, 0, 1] 4 (by decide)

end DalvikPort
